import Mathlib

/-!
# Verification model of dapla-toolbelt-pseudo

A shallow embedding of the `dapla_pseudo` client library (Statistics Norway's
"Dapla Toolbelt Pseudo"), built for checking its natural-language specification.
The repository snapshot ships the package documentation (README, example
notebooks, `pyproject.toml`) but not the `dapla_pseudo` implementation modules
themselves, so the operations below are modelled from the specification and the
behaviour documented in the README and the example notebooks, as noted on each
definition.

The library is a client for a remote pseudonymization service: the caller
selects dataset fields through a fluent builder (`Pseudonymize`,
`Depseudonymize`, `Validator`), assigns a transformation policy to each
selection, and `run` sends the selected field values to the service and
reassembles the responses into the original tabular shape.  All cryptography is
server side; the service is therefore modelled as an abstract oracle.
-/

/-- Modelled from the spec: glob-style wildcard matching of a single pattern
segment against a single field-name segment (the `wcmatch` dependency supplies
this in the real package, whose source is not in the snapshot).  Only the `*`
wildcard appears in the documented examples; `*` matches any (possibly empty)
character sequence.  Fuel-based recursion so that the kernel can evaluate it. -/
def globMatchAux : Nat → List Char → List Char → Bool
  | 0, _, _ => false
  | _ + 1, [], [] => true
  | _ + 1, [], _ :: _ => false
  | fuel + 1, p :: ps, [] => p == '*' && globMatchAux fuel ps []
  | fuel + 1, p :: ps, c :: cs =>
    if p = '*' then globMatchAux fuel ps (c :: cs) || globMatchAux fuel (p :: ps) cs
    else p == c && globMatchAux fuel ps cs

/-- Modelled from the spec: glob match of a full pattern segment. -/
def globMatchChars (ps cs : List Char) : Bool :=
  globMatchAux (ps.length + cs.length + 1) ps cs

/-- Modelled from the spec: split a pattern on the `/` path separator used by
the hierarchical field references documented in the notebooks
(`person_info/fnr`, `p*/fnr`). -/
def splitOnSlash : List Char → List (List Char)
  | [] => [[]]
  | c :: rest =>
    match splitOnSlash rest with
    | [] => [[]]
    | seg :: segs => if c = '/' then [] :: seg :: segs else (c :: seg) :: segs

/-- Modelled from the spec: the `/`-separated segments of a field pattern. -/
def patternSegments (pat : String) : List (List Char) :=
  splitOnSlash pat.toList

/-- Modelled from the spec: a pattern's segments match a hierarchical field
path when they glob-match the trailing segments of the path, per the notebook
examples: a bare `fnr` selects every nested field named `fnr`, and
`person_info/fnr` selects `fnr` directly inside any match of `person_info`. -/
def segmentsMatch (segs : List (List Char)) (path : List String) : Bool :=
  decide (segs.length ≤ path.length) &&
    (segs.zip (path.drop (path.length - segs.length))).all
      (fun pr => globMatchChars pr.1 pr.2.toList)

/-- Modelled from the spec: whether a user-supplied field pattern selects a
schema field.  The notebooks state that `on_fields` resolves glob syntax if and
only if the data was read directly from a file, so matching takes a flag:
with glob resolution enabled the pattern is matched segment-wise, otherwise the
pattern is taken literally as a (single-segment) field name. -/
def patternMatchesPath (glob : Bool) (pat : String) (path : List String) : Bool :=
  if glob then segmentsMatch (patternSegments pat) path
  else path == [pat]

/-- A dataset field: its (possibly nested) path and its column of values.
Values are modelled as strings, the representation sent to the service. -/
structure Column where
  path : List String
  values : List String
deriving DecidableEq, Repr

/-- The internal dataset representation: a list of columns. -/
abbrev Dataset := List Column

/-- Modelled from the spec: a transformation policy (pseudo function) that can
be attached to a field selection.  `daead` is the default deterministic
encryption, `fpe` the papis-compatible format-preserving encryption, and
`sidMapping` maps to a stable ID (optionally at a catalog snapshot date) and
then applies FPE; the algorithms themselves run server-side. -/
inductive PseudoFunction
  | daead (customKey : Option String)
  | fpe
  | sidMapping (snapshotDate : Option String)
deriving DecidableEq, Repr

/-- One `on_fields(...)` selection together with the policy chosen by the
immediately following builder method. -/
structure FieldSelection where
  patterns : List String
  func : PseudoFunction
deriving DecidableEq, Repr

/-- Where the dataset came from; glob resolution is enabled only for `file`. -/
inductive SourceKind
  | pandas
  | polars
  | file
deriving DecidableEq, Repr

/-- Modelled from the spec: glob resolution happens if and only if the data
was read directly from a file via `from_file`. -/
def globEnabled : SourceKind → Bool
  | .pandas => false
  | .polars => false
  | .file => true

/-- The state of a `Pseudonymize` builder pipeline: the dataset, its source
kind, and the accumulated field selections. -/
structure PseudoPipeline where
  sourceKind : SourceKind
  dataset : Dataset
  selections : List FieldSelection
deriving DecidableEq, Repr

/-- A pandas dataframe, viewed as its logical flat table. -/
structure PandasDataFrame where
  cols : List (String × List String)
deriving DecidableEq, Repr

/-- A polars dataframe, viewed as its logical flat table. -/
structure PolarsDataFrame where
  cols : List (String × List String)
deriving DecidableEq, Repr

/-- A (possibly hierarchical) file, viewed as its flattened columns. -/
structure HierFile where
  cols : List (List String × List String)
deriving DecidableEq, Repr

/-- Convert a flat table to the internal dataset: every column name becomes a
single-segment field path. -/
def flatToDataset (cols : List (String × List String)) : Dataset :=
  cols.map (fun nc => ⟨[nc.1], nc.2⟩)

/-- The dataset held in a hierarchical file. -/
def HierFile.toDataset (f : HierFile) : Dataset :=
  f.cols.map (fun pc => ⟨pc.1, pc.2⟩)

/-- A flat table written out as a file (used to compare `from_file` with the
in-memory constructors on logically identical tables). -/
def flatFile (cols : List (String × List String)) : HierFile :=
  ⟨cols.map (fun nc => ([nc.1], nc.2))⟩

/-- Modelled from the spec: `Pseudonymize.from_pandas`. -/
def Pseudonymize.from_pandas (df : PandasDataFrame) : PseudoPipeline :=
  ⟨.pandas, flatToDataset df.cols, []⟩

/-- Modelled from the spec: `Pseudonymize.from_polars`. -/
def Pseudonymize.from_polars (df : PolarsDataFrame) : PseudoPipeline :=
  ⟨.polars, flatToDataset df.cols, []⟩

/-- Modelled from the spec: `Pseudonymize.from_file` (local path or cloud
object storage path; either way the parsed content is the dataset). -/
def Pseudonymize.from_file (f : HierFile) : PseudoPipeline :=
  ⟨.file, f.toDataset, []⟩

/-- Intermediate builder state after `on_fields(...)`: the pending patterns
wait for a policy method. -/
structure PseudoSelector where
  base : PseudoPipeline
  pending : List String

/-- Modelled from the spec: `on_fields(...)` selects the fields matching the
given patterns; the chosen policy is supplied by the next builder method. -/
def PseudoPipeline.on_fields (p : PseudoPipeline) (pats : List String) : PseudoSelector :=
  ⟨p, pats⟩

/-- Attach a policy to the pending selection. -/
def PseudoSelector.withFunc (s : PseudoSelector) (f : PseudoFunction) : PseudoPipeline :=
  { s.base with selections := s.base.selections ++ [⟨s.pending, f⟩] }

/-- Modelled from the spec: `with_default_encryption` selects deterministic
encryption (DAEAD) for the fields of the preceding `on_fields` call, with an
optional custom key. -/
def PseudoSelector.with_default_encryption (s : PseudoSelector) (customKey : Option String) : PseudoPipeline :=
  s.withFunc (.daead customKey)

/-- Modelled from the spec: `with_stable_id` selects mapping to a stable ID
followed by format-preserving encryption for the fields of the preceding
`on_fields` call, optionally at a SID catalog snapshot date. -/
def PseudoSelector.with_stable_id (s : PseudoSelector) (sidSnapshotDate : Option String) : PseudoPipeline :=
  s.withFunc (.sidMapping sidSnapshotDate)

/-- Modelled from the spec: `with_papis_compatible_encryption` selects
format-preserving encryption for the fields of the preceding `on_fields`
call. -/
def PseudoSelector.with_papis_compatible_encryption (s : PseudoSelector) : PseudoPipeline :=
  s.withFunc .fpe

/-- Modelled from the spec: the rule assigned to a schema field by the
accumulated selections — the policy of the first selection containing a
pattern that matches the field, so every matched field gets exactly one rule. -/
def matchingFunc (glob : Bool) (sels : List FieldSelection) (path : List String) :
    Option PseudoFunction :=
  match sels with
  | [] => none
  | sel :: rest =>
    if sel.patterns.any (fun pat => patternMatchesPath glob pat path)
    then some sel.func
    else matchingFunc glob rest path

/-- One per-field entry of a request to the pseudonymization service: the
field's path, its assigned rule, and its values exactly as they appear in the
dataset. -/
structure FieldRequest where
  path : List String
  func : PseudoFunction
  values : List String
deriving DecidableEq, Repr

/-- Modelled from the spec: assemble the request body — one entry per dataset
field that the selections assign a rule to, carrying the field's values
unchanged. -/
def assembleRequestsCore (glob : Bool) (sels : List FieldSelection) (ds : Dataset) :
    List FieldRequest :=
  ds.filterMap (fun c =>
    match matchingFunc glob sels c.path with
    | some f => some ⟨c.path, f, c.values⟩
    | none => none)

/-- The requests a pipeline's `run` sends to the service. -/
def PseudoPipeline.assembleRequests (p : PseudoPipeline) : List FieldRequest :=
  assembleRequestsCore (globEnabled p.sourceKind) p.selections p.dataset

/-- The remote pseudonymization service, as an abstract value-level oracle:
given a rule and a field value it returns the transformed value.  The client
performs no cryptographic transformation itself. -/
abbrev Service := PseudoFunction → String → String

/-- Modelled from the spec: reassemble the service's responses into the
original tabular shape — each selected column's values are replaced by the
service's responses, every other column is kept as is. -/
def applyServiceCore (svc : Service) (glob : Bool) (sels : List FieldSelection)
    (ds : Dataset) : Dataset :=
  ds.map (fun c =>
    match matchingFunc glob sels c.path with
    | some f => ⟨c.path, c.values.map (svc f)⟩
    | none => c)

/-- The operation a result's provenance metadata records. -/
inductive Operation
  | pseudonymize
  | depseudonymize
  | repseudonymize
  | validateSid
deriving DecidableEq, Repr

/-- Provenance metadata carried by every completed operation. -/
structure ResultMetadata where
  operation : Operation
  transformedFields : List (List String)
deriving DecidableEq, Repr

/-- The result of a completed (de/re)pseudonymization run: the reassembled
dataset together with provenance metadata. -/
structure PseudoResult where
  dataset : Dataset
  metadata : ResultMetadata
deriving DecidableEq, Repr

/-- Modelled from the spec: `run` — send the selected fields to the service
and reassemble the responses into the original tabular shape, recording
provenance metadata. -/
def PseudoPipeline.run (p : PseudoPipeline) (svc : Service) : PseudoResult :=
  { dataset := applyServiceCore svc (globEnabled p.sourceKind) p.selections p.dataset
    metadata :=
      { operation := .pseudonymize
        transformedFields := (p.assembleRequests).map (fun r => r.path) } }

/-- Modelled from the spec: the policies available on `Depseudonymize` — the
same as `Pseudonymize` except that there is no `with_stable_id`, since mapping
from stable ID back to fnr is not offered. -/
inductive DepseudoFunction
  | daead (customKey : Option String)
  | fpe
deriving DecidableEq, Repr

/-- View a depseudonymization policy as a pseudo function rule. -/
def DepseudoFunction.toPseudoFunction : DepseudoFunction → PseudoFunction
  | .daead k => .daead k
  | .fpe => .fpe

/-- One `on_fields(...)` selection of a `Depseudonymize` pipeline. -/
structure DepseudoSelection where
  patterns : List String
  func : DepseudoFunction
deriving DecidableEq, Repr

/-- The state of a `Depseudonymize` builder pipeline. -/
structure DepseudoPipeline where
  sourceKind : SourceKind
  dataset : Dataset
  selections : List DepseudoSelection
deriving DecidableEq, Repr

/-- Modelled from the spec: `Depseudonymize.from_pandas`. -/
def Depseudonymize.from_pandas (df : PandasDataFrame) : DepseudoPipeline :=
  ⟨.pandas, flatToDataset df.cols, []⟩

/-- Modelled from the spec: `Depseudonymize.from_polars`. -/
def Depseudonymize.from_polars (df : PolarsDataFrame) : DepseudoPipeline :=
  ⟨.polars, flatToDataset df.cols, []⟩

/-- Modelled from the spec: `Depseudonymize.from_file`. -/
def Depseudonymize.from_file (f : HierFile) : DepseudoPipeline :=
  ⟨.file, f.toDataset, []⟩

/-- Intermediate `Depseudonymize` builder state after `on_fields(...)`. -/
structure DepseudoSelector where
  base : DepseudoPipeline
  pending : List String

/-- Modelled from the spec: `Depseudonymize`'s `on_fields`. -/
def DepseudoPipeline.on_fields (p : DepseudoPipeline) (pats : List String) : DepseudoSelector :=
  ⟨p, pats⟩

/-- Attach a depseudonymization policy to the pending selection. -/
def DepseudoSelector.withFunc (s : DepseudoSelector) (f : DepseudoFunction) : DepseudoPipeline :=
  { s.base with selections := s.base.selections ++ [⟨s.pending, f⟩] }

/-- Modelled from the spec: `Depseudonymize`'s `with_default_encryption`. -/
def DepseudoSelector.with_default_encryption (s : DepseudoSelector) (customKey : Option String) : DepseudoPipeline :=
  s.withFunc (.daead customKey)

/-- Modelled from the spec: `Depseudonymize`'s `with_papis_compatible_encryption`. -/
def DepseudoSelector.with_papis_compatible_encryption (s : DepseudoSelector) : DepseudoPipeline :=
  s.withFunc .fpe

/-- The pseudo-function selections a `Depseudonymize` pipeline gives rise to. -/
def DepseudoPipeline.pseudoSelections (p : DepseudoPipeline) : List FieldSelection :=
  p.selections.map (fun s => ⟨s.patterns, s.func.toPseudoFunction⟩)

/-- The requests a `Depseudonymize` pipeline's `run` sends to the service. -/
def DepseudoPipeline.assembleRequests (p : DepseudoPipeline) : List FieldRequest :=
  assembleRequestsCore (globEnabled p.sourceKind) p.pseudoSelections p.dataset

/-- Modelled from the spec: `Depseudonymize`'s `run`. -/
def DepseudoPipeline.run (p : DepseudoPipeline) (svc : Service) : PseudoResult :=
  { dataset := applyServiceCore svc (globEnabled p.sourceKind) p.pseudoSelections p.dataset
    metadata :=
      { operation := .depseudonymize
        transformedFields := (p.assembleRequests).map (fun r => r.path) } }

/-- Modelled from the spec: the legacy `repseudonymize` entry point — change
the pseudonymization of the named fields from a source key to a target key;
the re-encryption itself is done by the service oracle. -/
def repseudonymize (ds : Dataset) (fields : List String)
    (sourceKey targetKey : String) (svc : String → String → String → String) :
    PseudoResult :=
  { dataset :=
      ds.map (fun c =>
        if fields.any (fun f => c.path == [f])
        then ⟨c.path, c.values.map (svc sourceKey targetKey)⟩
        else c)
    metadata :=
      { operation := .repseudonymize
        transformedFields :=
          (ds.filter (fun c => fields.any (fun f => c.path == [f]))).map
            (fun c => c.path) } }

/-- The values of the (first) column with the given flat field name. -/
def columnValues (ds : Dataset) (name : String) : List String :=
  match ds.find? (fun c => c.path == [name]) with
  | some c => c.values
  | none => []

/-- Modelled from the spec: one snapshot of the service's stable-ID catalog —
its version and the fnr-to-SID lookup it defines. -/
structure SidCatalog where
  version : String
  lookup : String → Option String

/-- The SID side of the service: the catalog snapshot used for an optional
snapshot date (`none` meaning the latest catalog). -/
abbrev SidService := Option String → SidCatalog

/-- The state of a `Validator` builder. -/
structure ValidatorBuilder where
  dataset : Dataset
deriving Repr

/-- Modelled from the spec: `Validator.from_pandas`. -/
def Validator.from_pandas (df : PandasDataFrame) : ValidatorBuilder :=
  ⟨flatToDataset df.cols⟩

/-- Modelled from the spec: `Validator.from_polars`. -/
def Validator.from_polars (df : PolarsDataFrame) : ValidatorBuilder :=
  ⟨flatToDataset df.cols⟩

/-- `Validator` builder state after `on_field(...)`. -/
structure ValidatorField where
  dataset : Dataset
  field : String
deriving Repr

/-- Modelled from the spec: `Validator`'s `on_field`. -/
def ValidatorBuilder.on_field (b : ValidatorBuilder) (f : String) : ValidatorField :=
  ⟨b.dataset, f⟩

/-- Provenance metadata of a SID validation, recording which version of the
SID catalog was used. -/
structure ValidationMetadata where
  operation : Operation
  sidCatalogVersion : String
deriving DecidableEq, Repr

/-- The result of `validate_map_to_stable_id`: the field values that did not
have a corresponding SID, plus validation metadata. -/
structure ValidationResult where
  values : List String
  metadata : ValidationMetadata
deriving DecidableEq, Repr

/-- Modelled from the spec: `validate_map_to_stable_id` — validate that the
selected field's values can be mapped to a SID (optionally at a given snapshot
date); the resulting dataframe contains the values that did not have a
corresponding SID, and the metadata records the catalog version used. -/
def ValidatorField.validate_map_to_stable_id (vf : ValidatorField)
    (sidSnapshotDate : Option String) (svc : SidService) : ValidationResult :=
  let cat := svc sidSnapshotDate
  { values := (columnValues vf.dataset vf.field).filter (fun v => (cat.lookup v).isNone)
    metadata := { operation := .validateSid, sidCatalogVersion := cat.version } }

/-- A builder program: the successive `(on_fields patterns, policy)` steps of
a fluent `Pseudonymize` chain. -/
def applySteps (b : PseudoPipeline) (steps : List (List String × PseudoFunction)) :
    PseudoPipeline :=
  steps.foldl (fun acc st => (acc.on_fields st.1).withFunc st.2) b

/-- A pattern that uses no glob wildcard and no path separator: it can only
name a flat field literally. -/
def isLiteralPattern (pat : String) : Bool :=
  pat.toList.all (fun c => !(c == '*' || c == '/'))

/-- `run`, with the caller's dataframe threaded through explicitly as the
frame: the second component is the caller's dataframe after the run.  The
library mutates nothing, so it is the input dataset itself. -/
def PseudoPipeline.runWithFrame (p : PseudoPipeline) (svc : Service) :
    PseudoResult × Dataset :=
  (p.run svc, p.dataset)

/-- Specialisation of `applyServiceCore` to a single column (the function the
reassembly maps over the dataset). -/
def transformColumn (svc : Service) (glob : Bool) (sels : List FieldSelection)
    (c : Column) : Column :=
  match matchingFunc glob sels c.path with
  | some f => ⟨c.path, c.values.map (svc f)⟩
  | none => c

/-- The per-column request entry (the function request assembly filterMaps). -/
def columnRequest (glob : Bool) (sels : List FieldSelection) (c : Column) :
    Option FieldRequest :=
  match matchingFunc glob sels c.path with
  | some f => some ⟨c.path, f, c.values⟩
  | none => none

/-- Demo table used to instantiate the witnesses: the flat `personer` table of
the examples. -/
def demoCols : List (String × List String) :=
  [("fnr", ["11854898347", "01839899544"]),
   ("fornavn", ["Donald", "Mikke"]),
   ("etternavn", ["Duck", "Mus"])]

def demoPandas : PandasDataFrame := ⟨demoCols⟩

def demoPolars : PolarsDataFrame := ⟨demoCols⟩

/-- Demo hierarchical file, following `personer_hierarchical.json`. -/
def demoHier : HierFile :=
  ⟨[(["person_info", "fnr"], ["11854898347"]),
    (["person_info", "fornavn"], ["Donald"]),
    (["kjonn"], ["M"])]⟩

/-- A concrete service oracle for the witnesses. -/
def demoSvc : Service := fun _ v => String.append "enc-" v

/-- A demo chained pipeline: stable-ID mapping on `fnr`, default encryption on
`fornavn`. -/
def demoChain : PseudoPipeline :=
  (((Pseudonymize.from_polars demoPolars).on_fields ["fnr"]).with_stable_id none
    |>.on_fields ["fornavn"]).with_default_encryption none

/-- A demo `Depseudonymize` pipeline. -/
def demoDepseudo : DepseudoPipeline :=
  ((Depseudonymize.from_pandas demoPandas).on_fields ["fnr"]).with_default_encryption none

/-- Table and builder steps on which `from_file` and the in-memory
constructors demonstrably disagree: the wildcard `f*`. -/
def c6cols : List (String × List String) :=
  [("fnr", ["11854898347"]), ("fornavn", ["Donald"])]

def c6steps : List (List String × PseudoFunction) :=
  [(["f*"], .daead none)]

/-- `Depseudonymize`'s `run`, with the caller's dataframe threaded through
explicitly as the frame: the second component is the caller's dataframe after
the run. -/
def DepseudoPipeline.runWithFrame (p : DepseudoPipeline) (svc : Service) :
    PseudoResult × Dataset :=
  (p.run svc, p.dataset)

/-- `repseudonymize`, with the caller's dataset threaded through explicitly as
the frame: the second component is the caller's dataset after the run. -/
def repseudonymizeWithFrame (ds : Dataset) (fields : List String)
    (sourceKey targetKey : String) (svc : String → String → String → String) :
    PseudoResult × Dataset :=
  (repseudonymize ds fields sourceKey targetKey svc, ds)

/-- A concrete re-pseudonymization service oracle for the witnesses. -/
def demoRepSvc : String → String → String → String :=
  fun _ _ v => String.append "re-" v

theorem applyServiceCore_eq_map (svc : Service) (glob : Bool)
    (sels : List FieldSelection) (ds : Dataset) :
    applyServiceCore svc glob sels ds = ds.map (transformColumn svc glob sels) := rfl


theorem assembleRequestsCore_eq_filterMap (glob : Bool) (sels : List FieldSelection)
    (ds : Dataset) :
    assembleRequestsCore glob sels ds = ds.filterMap (columnRequest glob sels) := rfl

theorem mem_assembleRequestsCore {glob : Bool} {sels : List FieldSelection}
    {ds : Dataset} {req : FieldRequest} :
    req ∈ assembleRequestsCore glob sels ds ↔
      ∃ c, c ∈ ds ∧ matchingFunc glob sels c.path = some req.func
        ∧ req.path = c.path ∧ req.values = c.values := by
  rw [assembleRequestsCore_eq_filterMap, List.mem_filterMap]
  constructor
  · rintro ⟨c, hc, hreq⟩
    refine ⟨c, hc, ?_⟩
    unfold columnRequest at hreq
    rcases hmf : matchingFunc glob sels c.path with _ | f
    · rw [hmf] at hreq; cases hreq
    · rw [hmf] at hreq
      cases hreq
      exact ⟨rfl, rfl, rfl⟩
  · rintro ⟨c, hc, hmf, hpath, hvals⟩
    refine ⟨c, hc, ?_⟩
    unfold columnRequest
    rw [hmf]
    cases req
    simp_all

theorem matchingFunc_cons (glob : Bool) (sel : FieldSelection)
    (rest : List FieldSelection) (path : List String) :
    matchingFunc glob (sel :: rest) path =
      if sel.patterns.any (fun pat => patternMatchesPath glob pat path)
      then some sel.func else matchingFunc glob rest path := rfl

theorem matchingFunc_isSome_of_match {glob : Bool} {sels : List FieldSelection}
    {path : List String}
    (h : ∃ sel ∈ sels, ∃ pat ∈ sel.patterns,
        patternMatchesPath glob pat path = true) :
    ∃ f, matchingFunc glob sels path = some f := by
  induction sels with
  | nil => simp at h
  | cons sel rest ih =>
    rcases h with ⟨s, hs, pat, hpat, hmatch⟩
    rw [matchingFunc_cons]
    by_cases hany : (sel.patterns.any fun pat => patternMatchesPath glob pat path) = true
    · rw [if_pos hany]
      exact ⟨sel.func, rfl⟩
    · rw [if_neg hany]
      apply ih
      rcases List.mem_cons.mp hs with h₁ | h₂
      · exfalso
        apply hany
        subst h₁
        exact List.any_eq_true.mpr ⟨pat, hpat, hmatch⟩
      · exact ⟨s, h₂, pat, hpat, hmatch⟩

theorem matchingFunc_append (glob : Bool) (l₁ l₂ : List FieldSelection)
    (path : List String) :
    matchingFunc glob (l₁ ++ l₂) path =
      (match matchingFunc glob l₁ path with
       | some f => some f
       | none => matchingFunc glob l₂ path) := by
  induction l₁ with
  | nil => rfl
  | cons sel rest ih =>
    rw [List.cons_append, matchingFunc_cons, matchingFunc_cons]
    by_cases hany : (sel.patterns.any fun pat => patternMatchesPath glob pat path) = true
    · rw [if_pos hany, if_pos hany]
    · rw [if_neg hany, if_neg hany, ih]

/-- Every rule assigned by a `Depseudonymize` pipeline comes from a
depseudonymization policy. -/
theorem matchingFunc_pseudoSelections {glob : Bool} {sels : List DepseudoSelection}
    {path : List String} {f : PseudoFunction}
    (h : matchingFunc glob
        (sels.map (fun s => ⟨s.patterns, s.func.toPseudoFunction⟩)) path = some f) :
    ∃ d : DepseudoFunction, f = d.toPseudoFunction := by
  induction sels with
  | nil => simp [matchingFunc] at h
  | cons sel rest ih =>
    rw [List.map_cons, matchingFunc_cons] at h
    by_cases hany : (sel.patterns.any fun pat => patternMatchesPath glob pat path) = true
    · rw [if_pos hany] at h
      exact ⟨sel.func, (Option.some_inj.mp h).symm⟩
    · rw [if_neg hany] at h
      exact ih h


/-- C7: every completed operation — pseudonymize, depseudonymize,
repseudonymize, SID validation — returns a result that carries provenance
metadata describing what was done, and the result of
`validate_map_to_stable_id` exposes a metadata attribute recording which
version of the SID catalog was used. -/
theorem results_carry_provenance_metadata
    (p : PseudoPipeline) (dp : DepseudoPipeline) (svc : Service)
    (ds : Dataset) (fields : List String) (sk tk : String)
    (rsvc : String → String → String → String)
    (vf : ValidatorField) (snap : Option String) (sidsvc : SidService) :
    (p.run svc).metadata.operation = Operation.pseudonymize
    ∧ (p.run svc).metadata.transformedFields
        = (p.assembleRequests).map (fun r => r.path)
    ∧ (dp.run svc).metadata.operation = Operation.depseudonymize
    ∧ (repseudonymize ds fields sk tk rsvc).metadata.operation
        = Operation.repseudonymize
    ∧ (vf.validate_map_to_stable_id snap sidsvc).metadata.operation
        = Operation.validateSid
    ∧ (vf.validate_map_to_stable_id snap sidsvc).metadata.sidCatalogVersion
        = (sidsvc snap).version :=
  ⟨rfl, rfl, rfl, rfl, rfl, rfl⟩

/-- C10: `Validator.from_polars(df).on_field(f).validate_map_to_stable_id()`
(and the `from_pandas` variant) returns a result whose dataframe contains
exactly those values of field `f` that did not have a corresponding SID in the
catalog (optionally at the given snapshot date), and no other values. -/
theorem validate_sid_returns_unmapped_values
    (pl : PolarsDataFrame) (pd : PandasDataFrame) (f : String)
    (snap : Option String) (svc : SidService) (v : String) :
    (v ∈ (((Validator.from_polars pl).on_field f).validate_map_to_stable_id
            snap svc).values
      ↔ v ∈ columnValues (flatToDataset pl.cols) f ∧ (svc snap).lookup v = none)
    ∧ (v ∈ (((Validator.from_pandas pd).on_field f).validate_map_to_stable_id
            snap svc).values
      ↔ v ∈ columnValues (flatToDataset pd.cols) f ∧ (svc snap).lookup v = none) := by
  constructor <;>
    simp [Validator.from_polars, Validator.from_pandas, ValidatorBuilder.on_field,
      ValidatorField.validate_map_to_stable_id, List.mem_filter,
      Option.isNone_iff_eq_none]

/-- C9: `Depseudonymize` has no `with_stable_id` method, so no request
assembled by a `Depseudonymize` pipeline ever contains a stable-ID mapping
rule. -/
theorem depseudonymize_never_sid_rule
    (dp : DepseudoPipeline) (req : FieldRequest)
    (h : req ∈ dp.assembleRequests) (snap : Option String) :
    req.func ≠ PseudoFunction.sidMapping snap := by
  rcases mem_assembleRequestsCore.mp h with ⟨c, _, hmf, _, _⟩
  rcases matchingFunc_pseudoSelections hmf with ⟨d, hd⟩
  cases d <;> simp [hd, DepseudoFunction.toPseudoFunction]

/-- Witness for C9: the request the demo `Depseudonymize` pipeline assembles
for `fnr` carries no stable-ID rule. -/
theorem depseudonymize_never_sid_rule_witness :
    (⟨["fnr"], PseudoFunction.daead none, ["11854898347", "01839899544"]⟩
        : FieldRequest).func ≠ PseudoFunction.sidMapping none :=
  depseudonymize_never_sid_rule demoDepseudo
    ⟨["fnr"], PseudoFunction.daead none, ["11854898347", "01839899544"]⟩
    (by decide) none

/-- C1: for every dataset schema (flat or nested) and every set of
user-supplied field-name patterns passed to `on_fields` (literal names, glob
wildcards such as `p*/fnr`, or hierarchical references such as
`person_info/fnr`), pattern resolution compiles an unambiguous field-to-rule
assignment: each schema field (with distinct field paths) matched by at least
one pattern is assigned exactly one transformation rule in the request sent to
the service. -/
theorem pattern_resolution_assigns_unique_rule
    (p : PseudoPipeline) (col : Column)
    (hcol : col ∈ p.dataset)
    (hnodup : (p.dataset.map Column.path).Nodup)
    (hmatch : ∃ sel ∈ p.selections, ∃ pat ∈ sel.patterns,
        patternMatchesPath (globEnabled p.sourceKind) pat col.path = true) :
    ∃ f, matchingFunc (globEnabled p.sourceKind) p.selections col.path = some f
      ∧ (⟨col.path, f, col.values⟩ : FieldRequest) ∈ p.assembleRequests
      ∧ ∀ req ∈ p.assembleRequests, req.path = col.path →
          req = ⟨col.path, f, col.values⟩ := by
  obtain ⟨f, hf⟩ := matchingFunc_isSome_of_match hmatch
  refine ⟨f, hf, ?_, ?_⟩
  · exact mem_assembleRequestsCore.mpr ⟨col, hcol, hf, rfl, rfl⟩
  · rintro req hreq hpath
    rcases mem_assembleRequestsCore.mp hreq with ⟨c, hc, hmf, hrpath, hrvals⟩
    have hcp : c.path = col.path := by rw [← hrpath, hpath]
    have hceq : c = col := List.inj_on_of_nodup_map hnodup hc hcol hcp
    subst hceq
    have hfeq : req.func = f := by
      rw [hcp] at hmf
      exact Option.some_inj.mp (hmf.symm.trans hf)
    obtain ⟨rp, rf, rv⟩ := req
    simp_all

/-- Witness for C1: in the demo chained pipeline, the `fnr` column is matched
and gets exactly the stable-ID rule of its own `on_fields` group. -/
theorem pattern_resolution_assigns_unique_rule_witness :
    ∃ f, matchingFunc (globEnabled demoChain.sourceKind) demoChain.selections
          ["fnr"] = some f
      ∧ (⟨["fnr"], f, ["11854898347", "01839899544"]⟩ : FieldRequest)
          ∈ demoChain.assembleRequests
      ∧ ∀ req ∈ demoChain.assembleRequests, req.path = ["fnr"] →
          req = ⟨["fnr"], f, ["11854898347", "01839899544"]⟩ :=
  pattern_resolution_assigns_unique_rule demoChain
    ⟨["fnr"], ["11854898347", "01839899544"]⟩ (by decide) (by decide) (by decide)

/-- The reassembly step preserves tabular shape column by column: paths and
row counts are kept, unassigned columns are unchanged, and assigned columns
are positionally the service's responses. -/
theorem applyServiceCore_shape (svc : Service) (g : Bool)
    (sels : List FieldSelection) (ds : Dataset) (i : Nat) (c c' : Column)
    (hc : ds[i]? = some c)
    (hc' : (applyServiceCore svc g sels ds)[i]? = some c') :
    c'.path = c.path
    ∧ c'.values.length = c.values.length
    ∧ (matchingFunc g sels c.path = none → c' = c)
    ∧ (∀ f, matchingFunc g sels c.path = some f →
        c'.values = c.values.map (svc f))
    ∧ (applyServiceCore svc g sels ds).length = ds.length := by
  have hmapped : (applyServiceCore svc g sels ds)[i]?
      = (ds[i]?).map (transformColumn svc g sels) := by
    rw [applyServiceCore_eq_map]
    exact List.getElem?_map ..
  rw [hmapped, hc] at hc'
  have hc'eq : c' = transformColumn svc g sels c :=
    (Option.some_inj.mp hc').symm
  subst hc'eq
  refine ⟨?_, ?_, ?_, ?_, by rw [applyServiceCore_eq_map]; exact List.length_map ..⟩
  · unfold transformColumn
    rcases hmf : matchingFunc g sels c.path with _ | f <;> simp
  · unfold transformColumn
    rcases hmf : matchingFunc g sels c.path with _ | f <;> simp
  · intro hnone
    unfold transformColumn
    rw [hnone]
  · intro f hsome
    unfold transformColumn
    rw [hsome]

/-- C2: for every input dataset and every run of `Pseudonymize` or
`Depseudonymize`, the reassembled result has the same tabular shape as the
input — the same columns in the same order, each with the same number of
rows — where a column selected by `on_fields` has its values replaced
positionally by the service's response values, and every column not selected
by any pattern is unchanged. -/
theorem run_preserves_tabular_shape
    (p : PseudoPipeline) (dp : DepseudoPipeline) (svc : Service)
    (i j : Nat) (c c' d d' : Column)
    (hc : p.dataset[i]? = some c)
    (hc' : ((p.run svc).dataset)[i]? = some c')
    (hd : dp.dataset[j]? = some d)
    (hd' : ((dp.run svc).dataset)[j]? = some d') :
    c'.path = c.path
    ∧ c'.values.length = c.values.length
    ∧ (matchingFunc (globEnabled p.sourceKind) p.selections c.path = none → c' = c)
    ∧ (∀ f, matchingFunc (globEnabled p.sourceKind) p.selections c.path = some f →
        c'.values = c.values.map (svc f))
    ∧ ((p.run svc).dataset).length = p.dataset.length
    ∧ d'.path = d.path
    ∧ d'.values.length = d.values.length
    ∧ (matchingFunc (globEnabled dp.sourceKind) dp.pseudoSelections d.path = none →
        d' = d)
    ∧ (∀ f, matchingFunc (globEnabled dp.sourceKind) dp.pseudoSelections d.path
          = some f → d'.values = d.values.map (svc f))
    ∧ ((dp.run svc).dataset).length = dp.dataset.length := by
  have h₁ := applyServiceCore_shape svc (globEnabled p.sourceKind) p.selections
    p.dataset i c c' hc hc'
  have h₂ := applyServiceCore_shape svc (globEnabled dp.sourceKind)
    dp.pseudoSelections dp.dataset j d d' hd hd'
  exact ⟨h₁.1, h₁.2.1, h₁.2.2.1, h₁.2.2.2.1, h₁.2.2.2.2,
    h₂.1, h₂.2.1, h₂.2.2.1, h₂.2.2.2.1, h₂.2.2.2.2⟩

/-- Witness for C2: in the demo chained `Pseudonymize` pipeline the
`etternavn` column (not selected) is unchanged and keeps its shape, and in the
demo `Depseudonymize` pipeline the selected `fnr` column keeps its path and
row count with values replaced by the service's responses. -/
theorem run_preserves_tabular_shape_witness :
    (⟨["etternavn"], ["Duck", "Mus"]⟩ : Column).path
        = (⟨["etternavn"], ["Duck", "Mus"]⟩ : Column).path
    ∧ (⟨["etternavn"], ["Duck", "Mus"]⟩ : Column).values.length
        = (⟨["etternavn"], ["Duck", "Mus"]⟩ : Column).values.length
    ∧ (matchingFunc (globEnabled demoChain.sourceKind) demoChain.selections
          ["etternavn"] = none →
        (⟨["etternavn"], ["Duck", "Mus"]⟩ : Column) = ⟨["etternavn"], ["Duck", "Mus"]⟩)
    ∧ (∀ f, matchingFunc (globEnabled demoChain.sourceKind) demoChain.selections
          ["etternavn"] = some f →
        (⟨["etternavn"], ["Duck", "Mus"]⟩ : Column).values
          = ["Duck", "Mus"].map (demoSvc f))
    ∧ ((demoChain.run demoSvc).dataset).length = demoChain.dataset.length
    ∧ (⟨["fnr"], ["enc-11854898347", "enc-01839899544"]⟩ : Column).path
        = (⟨["fnr"], ["11854898347", "01839899544"]⟩ : Column).path
    ∧ (⟨["fnr"], ["enc-11854898347", "enc-01839899544"]⟩ : Column).values.length
        = (⟨["fnr"], ["11854898347", "01839899544"]⟩ : Column).values.length
    ∧ (matchingFunc (globEnabled demoDepseudo.sourceKind)
          demoDepseudo.pseudoSelections ["fnr"] = none →
        (⟨["fnr"], ["enc-11854898347", "enc-01839899544"]⟩ : Column)
          = ⟨["fnr"], ["11854898347", "01839899544"]⟩)
    ∧ (∀ f, matchingFunc (globEnabled demoDepseudo.sourceKind)
          demoDepseudo.pseudoSelections ["fnr"] = some f →
        (⟨["fnr"], ["enc-11854898347", "enc-01839899544"]⟩ : Column).values
          = ["11854898347", "01839899544"].map (demoSvc f))
    ∧ ((demoDepseudo.run demoSvc).dataset).length = demoDepseudo.dataset.length :=
  run_preserves_tabular_shape demoChain demoDepseudo demoSvc 2 0
    ⟨["etternavn"], ["Duck", "Mus"]⟩ ⟨["etternavn"], ["Duck", "Mus"]⟩
    ⟨["fnr"], ["11854898347", "01839899544"]⟩
    ⟨["fnr"], ["enc-11854898347", "enc-01839899544"]⟩
    (by decide) (by decide) (by decide) (by decide)

/-- C3: the requests sent to the service contain exactly the fields selected
by the user's patterns together with their associated rules, with the field
values transmitted unchanged; the client applies no cryptographic
transformation itself — every transformed value in the result is exactly a
value returned by the (abstract) service oracle. -/
theorem requests_exactly_selected_fields
    (p : PseudoPipeline) (svc : Service) (req : FieldRequest) (i : Nat)
    (c c' : Column) :
    (req ∈ p.assembleRequests ↔
      ∃ col, col ∈ p.dataset
        ∧ matchingFunc (globEnabled p.sourceKind) p.selections col.path
            = some req.func
        ∧ req.path = col.path ∧ req.values = col.values)
    ∧ (p.dataset[i]? = some c → ((p.run svc).dataset)[i]? = some c' →
        ∀ f, matchingFunc (globEnabled p.sourceKind) p.selections c.path = some f →
          c'.values = c.values.map (svc f)) := by
  refine ⟨mem_assembleRequestsCore, ?_⟩
  intro hc hc' f hf
  exact (applyServiceCore_shape svc (globEnabled p.sourceKind) p.selections
    p.dataset i c c' hc hc').2.2.2.1 f hf

/-- Witness for C3: the demo pipeline's request for `fornavn` carries the
original values and the default-encryption rule, and the run result's
`fornavn` column is exactly the service's responses. -/
theorem requests_exactly_selected_fields_witness :
    (⟨["fornavn"], PseudoFunction.daead none, ["Donald", "Mikke"]⟩ : FieldRequest)
        ∈ demoChain.assembleRequests
    ∧ (⟨["fornavn"], ["enc-Donald", "enc-Mikke"]⟩ : Column).values
        = ["Donald", "Mikke"].map (demoSvc (PseudoFunction.daead none)) := by
  have h := requests_exactly_selected_fields demoChain demoSvc
    ⟨["fornavn"], PseudoFunction.daead none, ["Donald", "Mikke"]⟩ 1
    ⟨["fornavn"], ["Donald", "Mikke"]⟩ ⟨["fornavn"], ["enc-Donald", "enc-Mikke"]⟩
  exact ⟨h.1.mpr ⟨⟨["fornavn"], ["Donald", "Mikke"]⟩, by decide, by decide, rfl, rfl⟩,
    h.2 (by decide) (by decide) (PseudoFunction.daead none) (by decide)⟩

/-- C5: pseudonymization, depseudonymization and repseudonymization keep no
persistent state — the model threads all state explicitly, so two runs of the
same builder pipeline (or legacy `repseudonymize` call) on equal input
datasets with equal policy selections assemble equal requests and produce
equal results, and the caller's input dataframe after a run is the input it
supplied. -/
theorem runs_deterministic_stateless
    (p q : PseudoPipeline) (dp dq : DepseudoPipeline)
    (ds es : Dataset) (fs gs : List String) (sk sk₂ tk tk₂ : String)
    (svc svr : Service) (rsvc rsvr : String → String → String → String)
    (hpq : p = q) (hdpq : dp = dq) (hds : ds = es) (hfs : fs = gs)
    (hsk : sk = sk₂) (htk : tk = tk₂) (hs : svc = svr) (hr : rsvc = rsvr) :
    p.assembleRequests = q.assembleRequests
    ∧ p.run svc = q.run svr
    ∧ (p.runWithFrame svc).2 = p.dataset
    ∧ dp.assembleRequests = dq.assembleRequests
    ∧ dp.run svc = dq.run svr
    ∧ (dp.runWithFrame svc).2 = dp.dataset
    ∧ repseudonymize ds fs sk tk rsvc = repseudonymize es gs sk₂ tk₂ rsvr
    ∧ (repseudonymizeWithFrame ds fs sk tk rsvc).2 = ds := by
  subst hpq
  subst hdpq
  subst hds
  subst hfs
  subst hsk
  subst htk
  subst hs
  subst hr
  exact ⟨rfl, rfl, rfl, rfl, rfl, rfl, rfl, rfl⟩

/-- Witness for C5: identical demo pseudonymize, depseudonymize and
repseudonymize runs agree, and each leaves the caller's dataframe as
supplied. -/
theorem runs_deterministic_stateless_witness :
    demoChain.assembleRequests = demoChain.assembleRequests
    ∧ demoChain.run demoSvc = demoChain.run demoSvc
    ∧ (demoChain.runWithFrame demoSvc).2 = demoChain.dataset
    ∧ demoDepseudo.assembleRequests = demoDepseudo.assembleRequests
    ∧ demoDepseudo.run demoSvc = demoDepseudo.run demoSvc
    ∧ (demoDepseudo.runWithFrame demoSvc).2 = demoDepseudo.dataset
    ∧ repseudonymize (flatToDataset demoCols) ["fnr"] "k1" "k2" demoRepSvc
        = repseudonymize (flatToDataset demoCols) ["fnr"] "k1" "k2" demoRepSvc
    ∧ (repseudonymizeWithFrame (flatToDataset demoCols) ["fnr"] "k1" "k2"
          demoRepSvc).2 = flatToDataset demoCols :=
  runs_deterministic_stateless demoChain demoChain demoDepseudo demoDepseudo
    (flatToDataset demoCols) (flatToDataset demoCols) ["fnr"] ["fnr"]
    "k1" "k1" "k2" "k2" demoSvc demoSvc demoRepSvc demoRepSvc
    rfl rfl rfl rfl rfl rfl rfl rfl

/-- Appending a selection group whose patterns do not match a field leaves
that field's rule assignment unchanged. -/
theorem matchingFunc_snoc_no (g : Bool) (sels : List FieldSelection)
    (pats : List String) (f : PseudoFunction) (path : List String)
    (hno : (pats.any fun pat => patternMatchesPath g pat path) = false) :
    matchingFunc g (sels ++ [⟨pats, f⟩]) path = matchingFunc g sels path := by
  rw [matchingFunc_append]
  rcases hmf : matchingFunc g sels path with _ | f'
  · rw [matchingFunc_cons, if_neg (by simp [hno])]
    rfl
  · rfl

/-- Appending a selection group whose patterns match a field that no earlier
group matched assigns that field exactly the new group's policy. -/
theorem matchingFunc_snoc_yes (g : Bool) (sels : List FieldSelection)
    (pats : List String) (f : PseudoFunction) (path : List String)
    (hnone : matchingFunc g sels path = none)
    (hyes : (pats.any fun pat => patternMatchesPath g pat path) = true) :
    matchingFunc g (sels ++ [⟨pats, f⟩]) path = some f := by
  rw [matchingFunc_append, hnone]
  show matchingFunc g [⟨pats, f⟩] path = some f
  rw [matchingFunc_cons, if_pos hyes]

/-- C4: the fluent builder maps each policy method to a fixed policy —
`with_default_encryption` attaches DAEAD and `with_stable_id` attaches
stable-ID mapping (followed server-side by FPE) to exactly the fields of the
immediately preceding `on_fields` call: the new selection group carries those
patterns and that policy, fields not matched by the group keep whatever
assignment the earlier groups gave them, and fields matched only by the group
get exactly that policy. -/
theorem policy_methods_fixed_mapping
    (b : PseudoPipeline) (pats : List String) (key snap : Option String)
    (path : List String) :
    (((b.on_fields pats).with_default_encryption key).selections
        = b.selections ++ [⟨pats, PseudoFunction.daead key⟩])
    ∧ (((b.on_fields pats).with_stable_id snap).selections
        = b.selections ++ [⟨pats, PseudoFunction.sidMapping snap⟩])
    ∧ (((b.on_fields pats).with_papis_compatible_encryption).selections
        = b.selections ++ [⟨pats, PseudoFunction.fpe⟩])
    ∧ ((pats.any fun pat =>
          patternMatchesPath (globEnabled b.sourceKind) pat path) = false →
        matchingFunc (globEnabled b.sourceKind)
            (((b.on_fields pats).with_default_encryption key).selections) path
          = matchingFunc (globEnabled b.sourceKind) b.selections path
        ∧ matchingFunc (globEnabled b.sourceKind)
            (((b.on_fields pats).with_stable_id snap).selections) path
          = matchingFunc (globEnabled b.sourceKind) b.selections path)
    ∧ (matchingFunc (globEnabled b.sourceKind) b.selections path = none →
        (pats.any fun pat =>
          patternMatchesPath (globEnabled b.sourceKind) pat path) = true →
        matchingFunc (globEnabled b.sourceKind)
            (((b.on_fields pats).with_default_encryption key).selections) path
          = some (PseudoFunction.daead key)
        ∧ matchingFunc (globEnabled b.sourceKind)
            (((b.on_fields pats).with_stable_id snap).selections) path
          = some (PseudoFunction.sidMapping snap)) := by
  refine ⟨rfl, rfl, rfl, ?_, ?_⟩
  · intro hno
    constructor
    · show matchingFunc (globEnabled b.sourceKind)
        (b.selections ++ [⟨pats, PseudoFunction.daead key⟩]) path = _
      exact matchingFunc_snoc_no _ _ _ _ _ hno
    · show matchingFunc (globEnabled b.sourceKind)
        (b.selections ++ [⟨pats, PseudoFunction.sidMapping snap⟩]) path = _
      exact matchingFunc_snoc_no _ _ _ _ _ hno
  · intro hnone hyes
    constructor
    · show matchingFunc (globEnabled b.sourceKind)
        (b.selections ++ [⟨pats, PseudoFunction.daead key⟩]) path = _
      exact matchingFunc_snoc_yes _ _ _ _ _ hnone hyes
    · show matchingFunc (globEnabled b.sourceKind)
        (b.selections ++ [⟨pats, PseudoFunction.sidMapping snap⟩]) path = _
      exact matchingFunc_snoc_yes _ _ _ _ _ hnone hyes

/-- Witness for C4: on the demo polars pipeline, selecting `fnr` with
`with_stable_id` leaves `fornavn` unassigned and assigns `fnr` the stable-ID
policy. -/
theorem policy_methods_fixed_mapping_witness :
    ((((Pseudonymize.from_polars demoPolars).on_fields
          ["fnr"]).with_stable_id none).selections
        = (Pseudonymize.from_polars demoPolars).selections
            ++ [⟨["fnr"], PseudoFunction.sidMapping none⟩])
    ∧ matchingFunc (globEnabled (Pseudonymize.from_polars demoPolars).sourceKind)
        ((((Pseudonymize.from_polars demoPolars).on_fields
            ["fnr"]).with_stable_id none).selections) ["fornavn"]
      = matchingFunc (globEnabled (Pseudonymize.from_polars demoPolars).sourceKind)
          (Pseudonymize.from_polars demoPolars).selections ["fornavn"]
    ∧ matchingFunc (globEnabled (Pseudonymize.from_polars demoPolars).sourceKind)
        ((((Pseudonymize.from_polars demoPolars).on_fields
            ["fnr"]).with_stable_id none).selections) ["fnr"]
      = some (PseudoFunction.sidMapping none) := by
  have h₁ := policy_methods_fixed_mapping (Pseudonymize.from_polars demoPolars)
    ["fnr"] none none ["fornavn"]
  have h₂ := policy_methods_fixed_mapping (Pseudonymize.from_polars demoPolars)
    ["fnr"] none none ["fnr"]
  exact ⟨h₁.2.1, (h₁.2.2.2.1 (by decide)).2, (h₂.2.2.2.2 (by decide) (by decide)).2⟩

/-- C8: `on_fields` resolves glob-syntax wildcards if and only if the data was
read directly from a file via `from_file`: glob resolution is enabled exactly
for the `file` source kind, patterns are matched literally for pipelines built
with `from_pandas` or `from_polars`, and the three constructors produce
exactly those source kinds. -/
theorem glob_resolution_iff_from_file
    (k : SourceKind) (pat : String) (path : List String)
    (pdf : PandasDataFrame) (plf : PolarsDataFrame) (hf : HierFile) :
    (globEnabled k = true ↔ k = SourceKind.file)
    ∧ (k ≠ SourceKind.file →
        patternMatchesPath (globEnabled k) pat path = (path == [pat]))
    ∧ patternMatchesPath true pat path = segmentsMatch (patternSegments pat) path
    ∧ globEnabled (Pseudonymize.from_pandas pdf).sourceKind = false
    ∧ globEnabled (Pseudonymize.from_polars plf).sourceKind = false
    ∧ globEnabled (Pseudonymize.from_file hf).sourceKind = true := by
  refine ⟨?_, ?_, rfl, rfl, rfl, rfl⟩
  · cases k <;> simp [globEnabled]
  · intro hk
    cases k <;> simp_all [globEnabled, patternMatchesPath]

/-- Witness for C8: for a pandas-built pipeline the wildcard `f*` is matched
literally, so it does not select `fornavn`. -/
theorem glob_resolution_iff_from_file_witness :
    patternMatchesPath (globEnabled SourceKind.pandas) "f*" ["fornavn"]
      = (["fornavn"] == ["f*"]) :=
  (glob_resolution_iff_from_file SourceKind.pandas "f*" ["fornavn"]
    demoPandas demoPolars demoHier).2.1 (by decide)

theorem globMatchAux_literal (fuel : Nat) : ∀ (ps cs : List Char),
    ps.length + cs.length < fuel → '*' ∉ ps →
    (globMatchAux fuel ps cs = true ↔ ps = cs) := by
  induction fuel with
  | zero => intro ps cs hlen _; exact absurd hlen (Nat.not_lt_zero _)
  | succ fuel ih =>
    intro ps cs hlen hstar
    cases ps with
    | nil =>
      cases cs with
      | nil => simp [globMatchAux]
      | cons c cs => simp [globMatchAux]
    | cons p ps =>
      have hp : p ≠ '*' := by
        intro e
        exact hstar (by simp [e])
      have hstar' : '*' ∉ ps := by
        intro hm
        exact hstar (by simp [hm])
      cases cs with
      | nil => simp [globMatchAux, hp]
      | cons c cs =>
        have hlen' : ps.length + cs.length < fuel := by
          simp only [List.length_cons] at hlen
          omega
        simp only [globMatchAux, if_neg hp, Bool.and_eq_true, beq_iff_eq,
          List.cons.injEq]
        rw [ih ps cs hlen' hstar']

theorem globMatchChars_literal (ps cs : List Char) (hstar : '*' ∉ ps) :
    (globMatchChars ps cs = true ↔ ps = cs) :=
  globMatchAux_literal (ps.length + cs.length + 1) ps cs (by omega) hstar

theorem splitOnSlash_noSlash (cs : List Char) (h : '/' ∉ cs) :
    splitOnSlash cs = [cs] := by
  induction cs with
  | nil => rfl
  | cons c rest ih =>
    have hc : c ≠ '/' := by
      intro e
      exact h (by simp [e])
    have h' : '/' ∉ rest := by
      intro hm
      exact h (by simp [hm])
    simp only [splitOnSlash, ih h', if_neg hc]

theorem isLiteralPattern_spec (pat : String) (h : isLiteralPattern pat = true) :
    '*' ∉ pat.toList ∧ '/' ∉ pat.toList := by
  unfold isLiteralPattern at h
  rw [List.all_eq_true] at h
  constructor <;> intro hm <;> have := h _ hm <;> simp at this

theorem string_toList_injective {s t : String} (h : s.toList = t.toList) :
    s = t := by
  cases s
  cases t
  exact congrArg String.mk (by simpa [String.toList] using h)

/-- On a flat field a wildcard-free, slash-free pattern matches the same
fields whether glob resolution is enabled or not. -/
theorem patternMatchesPath_literal (pat n : String)
    (h : isLiteralPattern pat = true) :
    patternMatchesPath true pat [n] = patternMatchesPath false pat [n] := by
  obtain ⟨hstar, hslash⟩ := isLiteralPattern_spec pat h
  have lhs_eq : patternMatchesPath true pat [n]
      = globMatchChars pat.toList n.toList := by
    show segmentsMatch (patternSegments pat) [n] = _
    unfold patternSegments
    rw [splitOnSlash_noSlash _ hslash]
    simp [segmentsMatch]
  rw [Bool.eq_iff_iff, lhs_eq]
  show _ ↔ (([n] : List String) == [pat]) = true
  rw [globMatchChars_literal _ _ hstar, beq_iff_eq]
  constructor
  · intro he
    simp [string_toList_injective he]
  · intro he
    rw [List.cons.injEq] at he
    rw [he.1]

/-- On a flat field, all-literal selections assign the same rule with or
without glob resolution. -/
theorem matchingFunc_literal_flat (sels : List FieldSelection) (n : String)
    (h : ∀ sel ∈ sels, ∀ pat ∈ sel.patterns, isLiteralPattern pat = true) :
    matchingFunc true sels [n] = matchingFunc false sels [n] := by
  induction sels with
  | nil => rfl
  | cons sel rest ih =>
    rw [matchingFunc_cons, matchingFunc_cons]
    have hany : (sel.patterns.any fun pat => patternMatchesPath true pat [n])
        = (sel.patterns.any fun pat => patternMatchesPath false pat [n]) := by
      rw [Bool.eq_iff_iff, List.any_eq_true, List.any_eq_true]
      constructor
      · rintro ⟨pat, hpat, hm⟩
        refine ⟨pat, hpat, ?_⟩
        rw [← patternMatchesPath_literal pat n (h sel (by simp) pat hpat)]
        exact hm
      · rintro ⟨pat, hpat, hm⟩
        refine ⟨pat, hpat, ?_⟩
        rw [patternMatchesPath_literal pat n (h sel (by simp) pat hpat)]
        exact hm
    rw [hany, ih (fun s hs p hp => h s (List.mem_cons_of_mem _ hs) p hp)]

theorem applySteps_cons (b : PseudoPipeline) (st : List String × PseudoFunction)
    (rest : List (List String × PseudoFunction)) :
    applySteps b (st :: rest) = applySteps ((b.on_fields st.1).withFunc st.2) rest := rfl

/-- `applySteps` keeps the source kind and dataset and appends one selection
group per step. -/
theorem applySteps_spec (steps : List (List String × PseudoFunction)) :
    ∀ b : PseudoPipeline,
    (applySteps b steps).sourceKind = b.sourceKind
    ∧ (applySteps b steps).dataset = b.dataset
    ∧ (applySteps b steps).selections
        = b.selections ++ steps.map (fun st => ⟨st.1, st.2⟩) := by
  induction steps with
  | nil =>
    intro b
    exact ⟨rfl, rfl, by simp [applySteps]⟩
  | cons st rest ih =>
    intro b
    rw [applySteps_cons]
    obtain ⟨h1, h2, h3⟩ := ih ((b.on_fields st.1).withFunc st.2)
    refine ⟨by rw [h1]; rfl, by rw [h2]; rfl, ?_⟩
    rw [h3]
    show (b.selections ++ [⟨st.1, st.2⟩]) ++ _ = _
    rw [List.append_assoc]
    rfl

theorem flatFile_toDataset (cols : List (String × List String)) :
    (flatFile cols).toDataset = flatToDataset cols := by
  unfold flatFile HierFile.toDataset flatToDataset
  rw [List.map_map]
  rfl

theorem assembleRequestsCore_literal_flat (sels : List FieldSelection)
    (cols : List (String × List String))
    (h : ∀ sel ∈ sels, ∀ pat ∈ sel.patterns, isLiteralPattern pat = true) :
    assembleRequestsCore true sels (flatToDataset cols)
      = assembleRequestsCore false sels (flatToDataset cols) := by
  rw [assembleRequestsCore_eq_filterMap, assembleRequestsCore_eq_filterMap]
  apply List.filterMap_congr
  intro c hc
  rcases List.mem_map.mp hc with ⟨nc, _, hceq⟩
  unfold columnRequest
  rw [← hceq]
  rw [matchingFunc_literal_flat sels nc.1 h]

theorem applyServiceCore_literal_flat (svc : Service) (sels : List FieldSelection)
    (cols : List (String × List String))
    (h : ∀ sel ∈ sels, ∀ pat ∈ sel.patterns, isLiteralPattern pat = true) :
    applyServiceCore svc true sels (flatToDataset cols)
      = applyServiceCore svc false sels (flatToDataset cols) := by
  rw [applyServiceCore_eq_map, applyServiceCore_eq_map]
  apply List.map_congr_left
  intro c hc
  rcases List.mem_map.mp hc with ⟨nc, _, hceq⟩
  unfold transformColumn
  rw [← hceq]
  rw [matchingFunc_literal_flat sels nc.1 h]


/-- Counterexample to C6 as stated: on the same logical table and the same
`on_fields` selection `f*` with `with_default_encryption`, the `from_file`
pipeline and the `from_polars` pipeline assemble different field-to-rule
assignments — the documented behaviour that glob syntax is resolved if and
only if the data was read directly from a file. -/
theorem from_file_from_polars_differ_on_glob :
    (applySteps (Pseudonymize.from_file (flatFile c6cols)) c6steps).assembleRequests
      ≠ (applySteps (Pseudonymize.from_polars ⟨c6cols⟩) c6steps).assembleRequests := by
  decide

/-- C6 (amended): for every logically identical flat table, the pipelines
built via `from_pandas` and `from_polars` are always equivalent — producing
the same field-to-rule assignments and the same transformed result values —
and both are also equivalent to the `from_file` pipeline whenever each
`on_fields` pattern is a literal field name (no glob wildcard, no path
separator). -/
theorem source_equivalence_for_literal_patterns
    (cols : List (String × List String))
    (steps : List (List String × PseudoFunction)) (svc : Service) :
    ((applySteps (Pseudonymize.from_pandas ⟨cols⟩) steps).assembleRequests
      = (applySteps (Pseudonymize.from_polars ⟨cols⟩) steps).assembleRequests)
    ∧ (((applySteps (Pseudonymize.from_pandas ⟨cols⟩) steps).run svc).dataset
      = ((applySteps (Pseudonymize.from_polars ⟨cols⟩) steps).run svc).dataset)
    ∧ ((∀ st ∈ steps, ∀ pat ∈ st.1, isLiteralPattern pat = true) →
        ((applySteps (Pseudonymize.from_pandas ⟨cols⟩) steps).assembleRequests
          = (applySteps (Pseudonymize.from_file (flatFile cols)) steps).assembleRequests)
        ∧ (((applySteps (Pseudonymize.from_pandas ⟨cols⟩) steps).run svc).dataset
          = ((applySteps (Pseudonymize.from_file (flatFile cols)) steps).run
              svc).dataset)) := by
  obtain ⟨hk₁, hd₁, hs₁⟩ := applySteps_spec steps (Pseudonymize.from_pandas ⟨cols⟩)
  obtain ⟨hk₂, hd₂, hs₂⟩ := applySteps_spec steps (Pseudonymize.from_polars ⟨cols⟩)
  obtain ⟨hk₃, hd₃, hs₃⟩ := applySteps_spec steps (Pseudonymize.from_file (flatFile cols))
  refine ⟨?_, ?_, ?_⟩
  · show assembleRequestsCore _ _ _ = assembleRequestsCore _ _ _
    rw [hk₁, hk₂, hd₁, hd₂, hs₁, hs₂]
    rfl
  · show (applyServiceCore _ _ _ _ : Dataset) = applyServiceCore _ _ _ _
    rw [hk₁, hk₂, hd₁, hd₂, hs₁, hs₂]
    rfl
  · intro hlit
    have hsels : ∀ sel ∈ steps.map (fun st => (⟨st.1, st.2⟩ : FieldSelection)),
        ∀ pat ∈ sel.patterns, isLiteralPattern pat = true := by
      intro sel hsel pat hpat
      rcases List.mem_map.mp hsel with ⟨st, hst, hseq⟩
      apply hlit st hst
      rw [← hseq] at hpat
      exact hpat
    refine ⟨?_, ?_⟩
    · show assembleRequestsCore _ _ _ = assembleRequestsCore _ _ _
      rw [hk₁, hk₃, hd₁, hd₃, hs₁, hs₃]
      show assembleRequestsCore false
          (steps.map (fun st => (⟨st.1, st.2⟩ : FieldSelection)))
          (flatToDataset cols)
        = assembleRequestsCore true
            (steps.map (fun st => (⟨st.1, st.2⟩ : FieldSelection)))
            (flatFile cols).toDataset
      rw [flatFile_toDataset]
      exact (assembleRequestsCore_literal_flat _ cols hsels).symm
    · show (applyServiceCore _ _ _ _ : Dataset) = applyServiceCore _ _ _ _
      rw [hk₁, hk₃, hd₁, hd₃, hs₁, hs₃]
      show applyServiceCore svc false
          (steps.map (fun st => (⟨st.1, st.2⟩ : FieldSelection)))
          (flatToDataset cols)
        = applyServiceCore svc true
            (steps.map (fun st => (⟨st.1, st.2⟩ : FieldSelection)))
            (flatFile cols).toDataset
      rw [flatFile_toDataset]
      exact (applyServiceCore_literal_flat svc _ cols hsels).symm

/-- Witness for the amended C6: with the literal selection `fnr`, the three
constructors agree on the demo table. -/
theorem source_equivalence_for_literal_patterns_witness :
    ((applySteps (Pseudonymize.from_pandas ⟨demoCols⟩)
        [(["fnr"], .daead none)]).assembleRequests
      = (applySteps (Pseudonymize.from_polars ⟨demoCols⟩)
          [(["fnr"], .daead none)]).assembleRequests)
    ∧ (((applySteps (Pseudonymize.from_pandas ⟨demoCols⟩)
          [(["fnr"], .daead none)]).run demoSvc).dataset
      = ((applySteps (Pseudonymize.from_polars ⟨demoCols⟩)
          [(["fnr"], .daead none)]).run demoSvc).dataset)
    ∧ ((applySteps (Pseudonymize.from_pandas ⟨demoCols⟩)
          [(["fnr"], .daead none)]).assembleRequests
      = (applySteps (Pseudonymize.from_file (flatFile demoCols))
          [(["fnr"], .daead none)]).assembleRequests)
    ∧ (((applySteps (Pseudonymize.from_pandas ⟨demoCols⟩)
          [(["fnr"], .daead none)]).run demoSvc).dataset
      = ((applySteps (Pseudonymize.from_file (flatFile demoCols))
          [(["fnr"], .daead none)]).run demoSvc).dataset) := by
  have h := source_equivalence_for_literal_patterns demoCols
    [(["fnr"], .daead none)] demoSvc
  have hfile := h.2.2 (by decide)
  exact ⟨h.1, h.2.1, hfile.1, hfile.2⟩
